import Mathlib

/-!
Verification of the face-recognition subsystem of the `library` repository
(`idchartrecognation` Django app), as a shallow embedding in Lean 4.

Conventions of the embedding:
* Face-encoding element values are modelled by `FloatVal`: either a finite
  rational number, or one of the non-finite IEEE values `nan`, `inf`, `ninf`
  (the matcher's validator only ever inspects finiteness and zero-ness, never
  performs arithmetic on the elements, so this is exact).
* Distances and confidence are rationals; the external
  `face_recognition.face_distance` library call is an opaque collaborator of
  the code, so matcher functions are parameterised by a distance function
  `distFn`.
* Byte storage (`FaceEncoding.encoding_data`) is a `List Nat` of byte values;
  32-bit and 64-bit float elements are represented by their bit patterns
  (`Nat` below `2^32` / `2^64`) serialised little-endian, and the numpy
  `astype(np.float32)` downcast is an arbitrary quantified conversion on bit
  patterns.
* Python exceptions are modelled with `Except Unit`; Django ORM state is an
  explicit list of records.
-/

namespace Library

/-- Element of a numpy float array, as far as the validator observes it:
a finite rational, NaN, +inf or -inf. -/
inductive FloatVal : Type where
  | num (q : ℚ)
  | nan
  | inf
  | ninf
deriving DecidableEq, Repr

namespace FloatVal

/-- `np.isnan` on a single element. -/
def isNaN : FloatVal → Bool
  | nan => true
  | _ => false

/-- `np.isinf` on a single element (true for both infinities). -/
def isInfVal : FloatVal → Bool
  | inf => true
  | ninf => true
  | _ => false

/-- Elementwise `== 0` comparison (`NaN == 0` and `inf == 0` are false). -/
def eqZero : FloatVal → Bool
  | num q => q == 0
  | _ => false

end FloatVal

/-- A face encoding: the 1-D numpy array, element by element. -/
abbrev Enc := List FloatVal

/-- `EncodingValidator.validate_encoding` (utils.py 713-748): the array must
have shape `(128,)`, contain no NaN, no infinity, and not be all zeros. -/
def validate_encoding (encoding : Enc) : Bool :=
  if encoding.length ≠ 128 then false
  else if encoding.any FloatVal.isNaN then false
  else if encoding.any FloatVal.isInfVal then false
  else if encoding.all FloatVal.eqZero then false
  else true

/-- `FaceMatcher._distance_to_confidence` (utils.py 692-695):
`max(0.0, min(100.0, (1.0 - distance) * 100))`. -/
def distance_to_confidence (distance : ℚ) : ℚ :=
  max 0 (min 100 ((1 - distance) * 100))

/-- `np.argsort` over a list of distances: the indices `0..n-1` sorted by the
distance they point at (modelled with a merge sort; any comparison sort yields
a permutation of the indices that is sorted by key, which is all the source
relies on). -/
def argsort (ds : List ℚ) : List ℕ :=
  (List.range ds.length).mergeSort (fun i j => decide (ds.getD i 0 ≤ ds.getD j 0))

/-- One entry of `alternative_matches` in `FaceMatcher.compare_faces`. -/
structure AltMatch where
  index : ℕ
  distance : ℚ
  confidence : ℚ
  is_match : Bool
deriving DecidableEq, Repr

/-- The dictionary returned by `FaceMatcher.compare_faces`.  The
`threshold_used` key is absent from `_empty_comparison_result`, hence an
`Option`. -/
structure CompareResult where
  matchesList : List Bool
  face_distances : List ℚ
  best_match_index : Option ℕ
  best_match_distance : Option ℚ
  confidence_score : Option ℚ
  alternative_matches : List AltMatch
  num_compared : ℕ
  threshold_used : Option ℚ
deriving DecidableEq, Repr

/-- `FaceMatcher._empty_comparison_result` (utils.py 697-708). -/
def empty_comparison_result : CompareResult where
  matchesList := []
  face_distances := []
  best_match_index := none
  best_match_distance := none
  confidence_score := none
  alternative_matches := []
  num_compared := 0
  threshold_used := none

/-- `face_distances = face_recognition.face_distance(known_encodings,
face_encoding)` (utils.py 558): one distance per known encoding, in order. -/
def face_distances_of (distFn : Enc → Enc → ℚ) (known_encodings : List Enc)
    (face_encoding : Enc) : List ℚ :=
  known_encodings.map (fun k => distFn k face_encoding)

/-- `matches = list(face_distances <= tolerance)` (utils.py 561). -/
def match_flags (ds : List ℚ) (tolerance : ℚ) : List Bool :=
  ds.map (fun d => decide (d ≤ tolerance))

/-- The `alternative_matches` loop (utils.py 578-586): near-misses among
`sorted_indices[1:6]` whose distance is within `tolerance * 1.2`. -/
def alternatives_of (ds : List ℚ) (tolerance : ℚ) : List AltMatch :=
  (((argsort ds).drop 1).take 5).filterMap (fun idx =>
    let dist := ds.getD idx 0
    if dist ≤ tolerance * (6/5) then
      some ⟨idx, dist, distance_to_confidence dist, decide (dist ≤ tolerance)⟩
    else none)

/-- `FaceMatcher.compare_faces` (utils.py 529-597), parameterised by the
external `face_recognition.face_distance` collaborator `distFn`. -/
def compare_faces (distFn : Enc → Enc → ℚ) (known_encodings : List Enc)
    (face_encoding : Enc) (tolerance : ℚ) : CompareResult :=
  if known_encodings.length = 0 then empty_comparison_result
  else if ¬ validate_encoding face_encoding then empty_comparison_result
  else if (match_flags (face_distances_of distFn known_encodings face_encoding) tolerance).any id then
    { matchesList := match_flags (face_distances_of distFn known_encodings face_encoding) tolerance
      face_distances := face_distances_of distFn known_encodings face_encoding
      best_match_index :=
        some ((argsort (face_distances_of distFn known_encodings face_encoding)).headD 0)
      best_match_distance :=
        some ((face_distances_of distFn known_encodings face_encoding).getD
          ((argsort (face_distances_of distFn known_encodings face_encoding)).headD 0) 0)
      confidence_score :=
        some (distance_to_confidence
          ((face_distances_of distFn known_encodings face_encoding).getD
            ((argsort (face_distances_of distFn known_encodings face_encoding)).headD 0) 0))
      alternative_matches :=
        alternatives_of (face_distances_of distFn known_encodings face_encoding) tolerance
      num_compared := known_encodings.length
      threshold_used := some tolerance }
  else
    { matchesList := match_flags (face_distances_of distFn known_encodings face_encoding) tolerance
      face_distances := face_distances_of distFn known_encodings face_encoding
      best_match_index := none
      best_match_distance := none
      confidence_score := none
      alternative_matches := []
      num_compared := known_encodings.length
      threshold_used := some tolerance }

/-! ### `FaceMatcher.find_matching_student` (utils.py 599-690) -/

/-- One entry of `FaceMatchResult.alternative_matches`. -/
structure StudentAlt (α : Type) where
  student : α
  confidence : ℚ
  distance : ℚ
  is_match : Bool
deriving DecidableEq, Repr

/-- The `FaceMatchResult` dataclass (utils.py 104-114); `processing_time` is
wall-clock time and is not modelled. -/
structure FaceMatchResult (α : Type) where
  found : Bool
  student : Option α
  confidence : Option ℚ
  match_distance : Option ℚ
  num_compared : ℕ
  alternative_matches : List (StudentAlt α)
  match_quality : Option String
deriving DecidableEq, Repr

/-- `FaceMatchResult.get_match_quality_label` (utils.py 116-127). -/
def get_match_quality_label {α : Type} (r : FaceMatchResult α) : String :=
  if ¬ r.found then "no_match"
  else
    match r.confidence with
    | none => "no_match"
    | some c =>
      if c ≥ 85 then "excellent"
      else if c ≥ 75 then "good"
      else if c ≥ 65 then "fair"
      else "poor"

/-- The loop of utils.py 629-633: iterate the queryset with `enumerate`,
keep encodings that deserialised (`≠ none`) and validate, recording the
student under the *queryset* index.  A queryset row is modelled as the pair
(student, result of `get_encoding()`). -/
def build_known {α : Type} (face_encodings_qs : List (α × Option Enc)) :
    List Enc × List (ℕ × α) :=
  face_encodings_qs.enum.foldl
    (fun acc p =>
      match p.2.2 with
      | some e =>
        if validate_encoding e then (acc.1 ++ [e], acc.2 ++ [(p.1, p.2.1)]) else acc
      | none => acc)
    ([], [])

/-- Python dict lookup returning `none` on a missing key. -/
def mapLookup {α : Type} (m : List (ℕ × α)) (k : ℕ) : Option α :=
  (m.find? (fun p => p.1 == k)).map (fun p => p.2)

/-- The `result['best_match_index'] is not None` branch of
`FaceMatcher.find_matching_student` (utils.py 646-683): an optional
`min_confidence` gate, then the matched student is looked up in
`student_map` (a missing key is a `KeyError`, modelled `Except.error ()`)
and the alternatives are resolved through the same map. -/
def fms_found_branch {α : Type} (distFn : Enc → Enc → ℚ)
    (face_encoding : Enc) (face_encodings_qs : List (α × Option Enc))
    (tolerance : ℚ) (min_confidence : Option ℚ) (return_alternatives : Bool)
    (bidx : ℕ) : Except Unit (FaceMatchResult α) :=
  let known := (build_known face_encodings_qs).1
  let student_map := (build_known face_encodings_qs).2
  let result := compare_faces distFn known face_encoding tolerance
  let confidence := result.confidence_score.getD 0
  let belowMin : Bool :=
    match min_confidence with
    | some mc => decide (confidence < mc)
    | none => false
  if belowMin then
    .ok { found := false, student := none, confidence := some confidence,
          match_distance := result.best_match_distance, num_compared := known.length,
          alternative_matches := [], match_quality := none }
  else
    match mapLookup student_map bidx with
    | none => .error ()
    | some st =>
      let alternatives :=
        if return_alternatives then
          result.alternative_matches.filterMap (fun alt =>
            (mapLookup student_map alt.index).map (fun s =>
              StudentAlt.mk s alt.confidence alt.distance alt.is_match))
        else []
      let mr : FaceMatchResult α :=
        { found := true, student := some st, confidence := some confidence,
          match_distance := result.best_match_distance, num_compared := known.length,
          alternative_matches := alternatives, match_quality := none }
      .ok { mr with match_quality := some (get_match_quality_label mr) }

/-- `FaceMatcher.find_matching_student` (utils.py 599-690). -/
def find_matching_student {α : Type} (distFn : Enc → Enc → ℚ)
    (face_encoding : Enc) (face_encodings_qs : List (α × Option Enc))
    (tolerance : ℚ) (min_confidence : Option ℚ) (return_alternatives : Bool) :
    Except Unit (FaceMatchResult α) :=
  if (build_known face_encodings_qs).1.length = 0 then
    .ok { found := false, student := none, confidence := none, match_distance := none,
          num_compared := 0, alternative_matches := [], match_quality := none }
  else
    match (compare_faces distFn (build_known face_encodings_qs).1 face_encoding
        tolerance).best_match_index with
    | some bidx =>
      fms_found_branch distFn face_encoding face_encodings_qs tolerance min_confidence
        return_alternatives bidx
    | none =>
      .ok { found := false, student := none, confidence := none,
            match_distance := (compare_faces distFn (build_known face_encodings_qs).1
              face_encoding tolerance).face_distances.head?,
            num_compared := (build_known face_encodings_qs).1.length,
            alternative_matches := [], match_quality := none }

/-! ### `QualityCalculator` (utils.py 344-521) -/

/-- Brightness sub-score (utils.py 487-488): `max(0, 100 - |b - 128| * 0.5)`. -/
def brightness_score (brightness : ℚ) : ℚ :=
  max 0 (100 - |brightness - 128| * (1/2))

/-- Sharpness sub-score (utils.py 491): `min(100, (s / 200) * 100)`. -/
def sharpness_score (sharpness : ℚ) : ℚ :=
  min 100 (sharpness / 200 * 100)

/-- Contrast sub-score (utils.py 494): `min(100, (c / 100) * 100)`. -/
def contrast_score (contrast : ℚ) : ℚ :=
  min 100 (contrast / 100 * 100)

/-- Size sub-score (utils.py 497-500): `min(100, (fs / 200) * 100)` when a
face region is present, else the neutral value 50. -/
def size_score (face_size : ℤ) : ℚ :=
  if 0 < face_size then min 100 ((face_size : ℚ) / 200 * 100) else 50

/-- `QualityCalculator._calculate_quality_score` (utils.py 478-506): the
weighted sum with weights `[0.25, 0.35, 0.20, 0.20]`. -/
def calculate_quality_score (brightness sharpness contrast : ℚ) (face_size : ℤ) : ℚ :=
  (1/4) * brightness_score brightness + (7/20) * sharpness_score sharpness
    + (1/5) * contrast_score contrast + (1/5) * size_score face_size

/-- The `quality_issues` list built in `QualityCalculator.calculate_quality`
(utils.py 387-430), in source order; `tilted` abstracts the landmark tilt
analysis (`_analyze_landmarks` appends `face_tilted` when the eye-line angle
exceeds 15 degrees). -/
def quality_issues (brightness sharpness contrast : ℚ) (face_size : ℤ)
    (aspect : ℚ) (tilted : Bool) : List String :=
  (if brightness < 40 then ["too_dark"]
   else if brightness > 220 then ["too_bright"] else []) ++
  (if sharpness < 75 then ["blurry"] else []) ++
  (if contrast < 25 then ["low_contrast"] else []) ++
  (if 0 < face_size then
    (if face_size < 100 then ["face_too_small"] else []) ++
    (if aspect < 3/5 ∨ aspect > 7/5 then ["unusual_aspect_ratio"] else [])
   else []) ++
  (if tilted then ["face_tilted"] else [])

/-- `is_good_quality` as computed in utils.py 437:
`len(quality_issues) == 0 and quality_score >= 70`. -/
def is_good_quality_calc (brightness sharpness contrast : ℚ) (face_size : ℤ)
    (aspect : ℚ) (tilted : Bool) : Bool :=
  decide ((quality_issues brightness sharpness contrast face_size aspect tilted).length = 0
    ∧ calculate_quality_score brightness sharpness contrast face_size ≥ 70)

/-! ### `FaceEncoding` storage (models.py 62-101)

`encoding_data` is a byte string.  A float32 element is its 4-byte
little-endian bit pattern, a float64 element its 8-byte pattern; element
values are the bit patterns as `Nat`.  `np.frombuffer` fails (raises) when
the buffer length is not a multiple of the item size, hence `Option`. -/

/-- Little-endian bytes of a 32-bit pattern (`tobytes` of one float32). -/
def f32ToBytes (x : ℕ) : List ℕ :=
  [x % 256, x / 256 % 256, x / 256 ^ 2 % 256, x / 256 ^ 3 % 256]

/-- Little-endian bytes of a 64-bit pattern (`tobytes` of one float64). -/
def f64ToBytes (x : ℕ) : List ℕ :=
  [x % 256, x / 256 % 256, x / 256 ^ 2 % 256, x / 256 ^ 3 % 256,
   x / 256 ^ 4 % 256, x / 256 ^ 5 % 256, x / 256 ^ 6 % 256, x / 256 ^ 7 % 256]

/-- `np.frombuffer(data, dtype=np.float32)`: reinterpret the byte string as
consecutive 4-byte little-endian elements; `none` when the length is not a
multiple of 4 (numpy raises `ValueError`). -/
def bytesToF32s : List ℕ → Option (List ℕ)
  | [] => some []
  | b0 :: b1 :: b2 :: b3 :: rest =>
    (bytesToF32s rest).map
      (fun v => (b0 + 256 * b1 + 256 ^ 2 * b2 + 256 ^ 3 * b3) :: v)
  | _ => none

/-- `np.frombuffer(data, dtype=np.float64)`: 8-byte little-endian elements. -/
def bytesToF64s : List ℕ → Option (List ℕ)
  | [] => some []
  | b0 :: b1 :: b2 :: b3 :: b4 :: b5 :: b6 :: b7 :: rest =>
    (bytesToF64s rest).map
      (fun v => (b0 + 256 * b1 + 256 ^ 2 * b2 + 256 ^ 3 * b3 + 256 ^ 4 * b4
        + 256 ^ 5 * b5 + 256 ^ 6 * b6 + 256 ^ 7 * b7) :: v)
  | _ => none

/-- `FaceEncoding.save_encoding` (models.py 62-75) applied to a float32 array:
shape must be `(128,)` (otherwise `ValidationError`, modelled as `none`), and
the stored bytes are `array.tobytes()`. -/
def save_encoding_f32 (encoding_array : List ℕ) : Option (List ℕ) :=
  if encoding_array.length = 128 then some ((encoding_array.map f32ToBytes).flatten)
  else none

/-- `FaceEncoding.save_encoding` applied to a float64 array (the layout a
legacy record holds). -/
def save_encoding_f64 (encoding_array : List ℕ) : Option (List ℕ) :=
  if encoding_array.length = 128 then some ((encoding_array.map f64ToBytes).flatten)
  else none

/-- `FaceEncoding.get_encoding` (models.py 77-101), parameterised by the
`astype(np.float32)` downcast `castF64toF32` on bit patterns: read the bytes
as float32; if that yields 128 elements return them; if it yields 256
elements, re-read as float64 and, if that yields 128 elements, return the
downcast vector; otherwise log a warning and return `none`.  Empty data also
returns `none`. -/
def get_encoding (castF64toF32 : ℕ → ℕ) (encoding_data : List ℕ) :
    Except Unit (Option (List ℕ)) :=
  if encoding_data.length = 0 then .ok none
  else
    match bytesToF32s encoding_data with
    | none => .error ()
    | some encoding =>
      if encoding.length = 128 then .ok (some encoding)
      else if encoding.length = 256 then
        match bytesToF64s encoding_data with
        | none => .error ()
        | some encoding64 =>
          if encoding64.length = 128 then .ok (some (encoding64.map castF64toF32))
          else .ok none
      else .ok none

/-! ### The encoding store: activation invariant (models.py 121-136,
views.py 381-427)

A database row of `FaceEncoding` as far as the activation logic reads it:
primary key, owning student, active flag.  The model declares
`student = OneToOneField(...)`, i.e. the schema additionally forces distinct
rows to have distinct students; the activation logic below is proved for
arbitrary row multisets, so it covers legacy states as well. -/

structure EncRecord where
  id : ℕ
  student : ℕ
  is_active : Bool
deriving DecidableEq, Repr

/-- The database table, one record per row. -/
abbrev StoreState := List EncRecord

/-- `views.activate_encoding` (views.py 399-427): look the record up
(404 → failure), reject when another active record for the same student
exists (`StorageConflict`), else persist `is_active = True`.  Returns the new
state and whether activation succeeded. -/
def activate_encoding (s : StoreState) (eid : ℕ) : StoreState × Bool :=
  match s.find? (fun r => r.id == eid) with
  | none => (s, false)
  | some rec0 =>
    let existing := s.filter (fun r =>
      r.student == rec0.student && r.is_active && r.id != eid)
    if existing.isEmpty then
      (s.map (fun r => if r.id == eid then { r with is_active := true } else r), true)
    else
      (s, false)

/-- `views.deactivate_encoding` (views.py 381-396): unconditionally persist
`is_active = False` on the record. -/
def deactivate_encoding (s : StoreState) (eid : ℕ) : StoreState :=
  s.map (fun r => if r.id == eid then { r with is_active := false } else r)

/-- `FaceEncoding.clean` (models.py 121-136): validation run before a
form/admin save; an active record is rejected when another active record for
the same student exists. -/
def clean_ok (s : StoreState) (rec0 : EncRecord) : Bool :=
  !rec0.is_active ||
    (s.filter (fun r =>
      r.student == rec0.student && r.is_active && r.id != rec0.id)).isEmpty

/-- A validated save (`full_clean(); save()`): applied only when `clean`
passes, it replaces the row with the same primary key, or inserts the record
when no such row exists. -/
def clean_save (s : StoreState) (rec0 : EncRecord) : StoreState :=
  if clean_ok s rec0 then
    if (s.find? (fun r => r.id == rec0.id)).isSome then
      s.map (fun r => if r.id == rec0.id then rec0 else r)
    else s ++ [rec0]
  else s

/-- The store operations the claim quantifies over. -/
inductive StoreOp where
  | activate (eid : ℕ)
  | deactivate (eid : ℕ)
  | save (rec0 : EncRecord)
deriving DecidableEq, Repr

/-- One store operation, executed atomically. -/
def store_step (s : StoreState) : StoreOp → StoreState
  | .activate eid => (activate_encoding s eid).1
  | .deactivate eid => deactivate_encoding s eid
  | .save rec0 => clean_save s rec0

/-- Run a call sequence against the store. -/
def store_run (s : StoreState) (ops : List StoreOp) : StoreState :=
  ops.foldl store_step s

/-- Rows have pairwise distinct primary keys. -/
def uniqueIds (s : StoreState) : Prop :=
  s.Pairwise (fun r1 r2 => r1.id ≠ r2.id)

/-- The spec invariant: at most one active record per identity. -/
def atMostOneActive (s : StoreState) : Prop :=
  ∀ r1 ∈ s, ∀ r2 ∈ s, r1.is_active → r2.is_active →
    r1.student = r2.student → r1 = r2

/-- The store invariant carried through every operation. -/
def StoreInv (s : StoreState) : Prop := uniqueIds s ∧ atMostOneActive s

instance (s : StoreState) : Decidable (uniqueIds s) := by
  unfold uniqueIds; infer_instance

instance (s : StoreState) : Decidable (atMostOneActive s) := by
  unfold atMostOneActive
  have : atMostOneActive s ↔ ∀ r1 ∈ s, ∀ r2 ∈ s,
      r1.is_active → r2.is_active → r1.student = r2.student → r1 = r2 := Iff.rfl
  infer_instance

instance (s : StoreState) : Decidable (StoreInv s) := by
  unfold StoreInv; infer_instance

/-! ### `views.process_recognition_image` (views.py 269-362)

The flow is modelled over the outcomes of its collaborators (face
extraction and matching) plus, for each of the five
`RecognitionLog.objects.create` call sites, whether that database write
raises.  `Except.error ()` is an exception escaping to the caller. -/

/-- Outcomes of the collaborators inside one recognition attempt. -/
structure RecogEnv where
  /-- `result['success']` from `extract_face_from_image`. -/
  extractSuccess : Bool
  /-- whether `result['error']` contains the substring `'No face'`. -/
  errNoFace : Bool
  /-- `result['error']` text. -/
  errText : String
  /-- `result['num_faces']`. -/
  numFaces : ℕ
  /-- `match_result['found']`. -/
  matchFound : Bool
  /-- `match_result['student']`. -/
  student : ℕ
  /-- `match_result['confidence']`. -/
  conf : ℚ
deriving DecidableEq, Repr

/-- Which `RecognitionLog.objects.create` call sites raise: the failed-
extraction log, the multiple-faces log, the success log, the no-match log,
and the log created inside the `except` handler. -/
structure LogRaises where
  onFail : Bool
  onMulti : Bool
  onSuccess : Bool
  onNoMatch : Bool
  onError : Bool
deriving DecidableEq, Repr

/-- The tuple `(recognized_student, confidence, result_message)` returned by
`process_recognition_image`. -/
structure RecogReturn where
  recognized_student : Option ℕ
  confidence : Option ℚ
  result_message : Option String
deriving DecidableEq, Repr

/-- The `except Exception` handler (views.py 353-360): it itself calls
`RecognitionLog.objects.create(result='error', ...)`, so a failing log write
here escapes to the caller; otherwise the function falls through to
`return recognized_student, confidence, result_message` with
`result_message = 'error'` and whatever the two other locals held when the
exception was raised. -/
def recognition_exc_handler (st : Option ℕ) (cf : Option ℚ) (lr : LogRaises) :
    Except Unit RecogReturn :=
  if lr.onError then .error ()
  else .ok ⟨st, cf, some "error"⟩

/-- `views.process_recognition_image` (views.py 269-362). -/
def process_recognition_image (env : RecogEnv) (lr : LogRaises) :
    Except Unit RecogReturn :=
  if ¬ env.extractSuccess then
    if lr.onFail then recognition_exc_handler none none lr
    else .ok ⟨none, none, some env.errText⟩
  else if 1 < env.numFaces ∧ lr.onMulti then
    recognition_exc_handler none none lr
  else if env.matchFound then
    if lr.onSuccess then recognition_exc_handler (some env.student) (some env.conf) lr
    else .ok ⟨some env.student, some env.conf, some "success"⟩
  else
    if lr.onNoMatch then recognition_exc_handler none none lr
    else .ok ⟨none, none, some "no_match"⟩

/-- No log write raises. -/
def noLogRaises : LogRaises := ⟨false, false, false, false, false⟩

/-! ### Properties of `argsort` -/

theorem argsort_perm (ds : List ℚ) : (argsort ds).Perm (List.range ds.length) :=
  List.mergeSort_perm _ _

theorem argsort_length (ds : List ℚ) : (argsort ds).length = ds.length := by
  simpa using (argsort_perm ds).length_eq

theorem mem_argsort {ds : List ℚ} {i : ℕ} : i ∈ argsort ds ↔ i < ds.length := by
  rw [(argsort_perm ds).mem_iff, List.mem_range]

theorem argsort_sorted (ds : List ℚ) :
    (argsort ds).Pairwise (fun i j => ds.getD i 0 ≤ ds.getD j 0) := by
  have h := @List.sorted_mergeSort ℕ
    (fun i j => decide (ds.getD i 0 ≤ ds.getD j 0))
    (fun a b c hab hbc => by
      simp only [decide_eq_true_eq] at *
      exact le_trans hab hbc)
    (fun a b => by
      simp only [Bool.or_eq_true, decide_eq_true_eq]
      exact le_total _ _)
    (List.range ds.length)
  refine List.Pairwise.imp ?_ h
  intro a b hab
  simpa using hab

/-- The head of `argsort` is an index of a minimal element. -/
theorem argsort_head_min (ds : List ℚ) (hne : ds ≠ []) :
    (argsort ds).headD 0 < ds.length ∧
      ∀ j < ds.length, ds.getD ((argsort ds).headD 0) 0 ≤ ds.getD j 0 := by
  have hlen : (argsort ds).length = ds.length := argsort_length ds
  have hpos : 0 < ds.length := List.length_pos.mpr hne
  obtain ⟨b, t, hbt⟩ : ∃ b t, argsort ds = b :: t := by
    cases h : argsort ds with
    | nil => rw [h] at hlen; simp at hlen; omega
    | cons b t => exact ⟨b, t, rfl⟩
  have hhead : (argsort ds).headD 0 = b := by rw [hbt]; rfl
  have hbmem : b ∈ argsort ds := by rw [hbt]; exact List.mem_cons_self _ _
  have hblt : b < ds.length := mem_argsort.mp hbmem
  refine ⟨by rwa [hhead], ?_⟩
  intro j hj
  rw [hhead]
  have hjmem : j ∈ argsort ds := mem_argsort.mpr hj
  rw [hbt] at hjmem
  rcases List.mem_cons.mp hjmem with hjb | hjt
  · subst hjb; exact le_refl _
  · have hsorted := argsort_sorted ds
    rw [hbt] at hsorted
    exact (List.pairwise_cons.mp hsorted).1 j hjt


/-! ### Case equations for `compare_faces` -/

theorem compare_faces_of_empty (distFn : Enc → Enc → ℚ) {known_encodings : List Enc}
    (face_encoding : Enc) (tolerance : ℚ) (h : known_encodings.length = 0) :
    compare_faces distFn known_encodings face_encoding tolerance = empty_comparison_result := by
  unfold compare_faces
  rw [if_pos h]

theorem compare_faces_of_invalid (distFn : Enc → Enc → ℚ) (known_encodings : List Enc)
    {face_encoding : Enc} (tolerance : ℚ) (h : validate_encoding face_encoding = false) :
    compare_faces distFn known_encodings face_encoding tolerance = empty_comparison_result := by
  unfold compare_faces
  by_cases h1 : known_encodings.length = 0
  · rw [if_pos h1]
  · rw [if_neg h1, if_pos (by simp [h])]

theorem compare_faces_pos_eq (distFn : Enc → Enc → ℚ) (known_encodings : List Enc)
    (face_encoding : Enc) (tolerance : ℚ)
    (h1 : known_encodings.length ≠ 0) (h2 : validate_encoding face_encoding = true)
    (h3 : (match_flags (face_distances_of distFn known_encodings face_encoding) tolerance).any id
          = true) :
    compare_faces distFn known_encodings face_encoding tolerance =
      { matchesList := match_flags (face_distances_of distFn known_encodings face_encoding) tolerance
        face_distances := face_distances_of distFn known_encodings face_encoding
        best_match_index :=
          some ((argsort (face_distances_of distFn known_encodings face_encoding)).headD 0)
        best_match_distance :=
          some ((face_distances_of distFn known_encodings face_encoding).getD
            ((argsort (face_distances_of distFn known_encodings face_encoding)).headD 0) 0)
        confidence_score :=
          some (distance_to_confidence
            ((face_distances_of distFn known_encodings face_encoding).getD
              ((argsort (face_distances_of distFn known_encodings face_encoding)).headD 0) 0))
        alternative_matches :=
          alternatives_of (face_distances_of distFn known_encodings face_encoding) tolerance
        num_compared := known_encodings.length
        threshold_used := some tolerance } := by
  unfold compare_faces
  rw [if_neg h1, if_neg (by simp [h2]), if_pos h3]

theorem compare_faces_neg_eq (distFn : Enc → Enc → ℚ) (known_encodings : List Enc)
    (face_encoding : Enc) (tolerance : ℚ)
    (h1 : known_encodings.length ≠ 0) (h2 : validate_encoding face_encoding = true)
    (h3 : ¬ (match_flags (face_distances_of distFn known_encodings face_encoding) tolerance).any id
          = true) :
    compare_faces distFn known_encodings face_encoding tolerance =
      { matchesList := match_flags (face_distances_of distFn known_encodings face_encoding) tolerance
        face_distances := face_distances_of distFn known_encodings face_encoding
        best_match_index := none
        best_match_distance := none
        confidence_score := none
        alternative_matches := []
        num_compared := known_encodings.length
        threshold_used := some tolerance } := by
  unfold compare_faces
  rw [if_neg h1, if_neg (by simp [h2]), if_neg h3]

theorem validate_encoding_true_or_false (e : Enc) :
    validate_encoding e = true ∨ validate_encoding e = false := by
  cases validate_encoding e <;> simp

/-- Pointwise reading of the match-flag list. -/
theorem match_flags_getD_true {ds : List ℚ} {tolerance : ℚ} {i : ℕ} :
    (match_flags ds tolerance).getD i false = true ↔
      i < ds.length ∧ ds.getD i 0 ≤ tolerance := by
  unfold match_flags
  rw [List.getD_eq_getElem?_getD, List.getElem?_map]
  cases h : ds[i]? with
  | none =>
    have hlen : ds.length ≤ i := List.getElem?_eq_none_iff.mp h
    constructor
    · intro hfalse; simp at hfalse
    · rintro ⟨hi, -⟩; omega
  | some d =>
    have hlt : i < ds.length := by
      by_contra hc
      rw [List.getElem?_eq_none_iff.mpr (by omega)] at h
      cases h
    have hge : ds[i] = d := by
      rw [List.getElem?_eq_getElem hlt] at h
      exact Option.some.inj h
    have hgd : ds.getD i 0 = d := by
      rw [List.getD_eq_getElem?_getD, h]; rfl
    simp [hgd, hlt, hge]

/-- `any(matches)` holds iff some distance is within tolerance. -/
theorem match_flags_any_iff {ds : List ℚ} {tolerance : ℚ} :
    (match_flags ds tolerance).any id = true ↔
      ∃ j, j < ds.length ∧ ds.getD j 0 ≤ tolerance := by
  unfold match_flags
  rw [List.any_eq_true]
  constructor
  · rintro ⟨x, hx, hid⟩
    obtain ⟨d, hd, rfl⟩ := List.mem_map.mp hx
    obtain ⟨j, hj, rfl⟩ := List.mem_iff_getElem.mp hd
    refine ⟨j, hj, ?_⟩
    rw [List.getD_eq_getElem _ _ hj]
    simpa using hid
  · rintro ⟨j, hj, hd⟩
    refine ⟨decide (ds[j] ≤ tolerance), List.mem_map.mpr ⟨ds[j], List.mem_iff_getElem.mpr ⟨j, hj, rfl⟩, rfl⟩, ?_⟩
    rw [List.getD_eq_getElem _ _ hj] at hd
    simpa using hd

/-- A convenient concrete valid encoding for witnesses. -/
def encOnes : Enc := List.replicate 128 (FloatVal.num 1)

/-! ### Claim theorems -/

/-- C1: the matcher's confidence is `clamp(0,100,(1-d)*100)`:
`confidence(0) = 100`, `confidence(d) = 0` for `d ≥ 1`, and linear
(`= (1-d)*100`) for `0 ≤ d ≤ 1`. -/
theorem C1_confidence_is_clamped_linear :
    (∀ d : ℚ, distance_to_confidence d = max 0 (min 100 ((1 - d) * 100))) ∧
    distance_to_confidence 0 = 100 ∧
    (∀ d : ℚ, 1 ≤ d → distance_to_confidence d = 0) ∧
    (∀ d : ℚ, 0 ≤ d → d ≤ 1 → distance_to_confidence d = (1 - d) * 100) := by
  refine ⟨fun d => rfl, by norm_num [distance_to_confidence], ?_, ?_⟩
  · intro d hd
    unfold distance_to_confidence
    have hx : (1 - d) * 100 ≤ 0 := by nlinarith
    rw [min_eq_right (le_trans hx (by norm_num)), max_eq_left hx]
  · intro d hd0 hd1
    unfold distance_to_confidence
    have hle : (1 - d) * 100 ≤ 100 := by nlinarith
    have hge : 0 ≤ (1 - d) * 100 := by nlinarith
    rw [min_eq_right hle, max_eq_right hge]

/-- Closed witness for C1 at concrete distances 0, 2 and 1/2. -/
theorem C1_witness :
    distance_to_confidence 0 = 100 ∧ distance_to_confidence 2 = 0 ∧
      distance_to_confidence (1/2) = 50 := by
  refine ⟨C1_confidence_is_clamped_linear.2.1,
    C1_confidence_is_clamped_linear.2.2.1 2 (by norm_num), ?_⟩
  rw [C1_confidence_is_clamped_linear.2.2.2 (1/2) (by norm_num) (by norm_num)]
  norm_num

/-- C7: a vector of the wrong shape, or containing NaN or an infinity, or
all zero, is rejected by `EncodingValidator.validate_encoding`. -/
theorem C7_validate_rejects (v : Enc)
    (h : v.length ≠ 128 ∨ v.any FloatVal.isNaN = true ∨
      v.any FloatVal.isInfVal = true ∨ v.all FloatVal.eqZero = true) :
    validate_encoding v = false := by
  unfold validate_encoding
  split_ifs with h1 h2 h3 h4 <;> first | rfl | simp_all

/-- Closed witness for C7: the empty vector, a 128-long NaN-carrying vector,
a 128-long vector with an infinity, and the 128-long zero vector are all
rejected. -/
theorem C7_witness :
    validate_encoding [] = false ∧
    validate_encoding (FloatVal.nan :: List.replicate 127 (FloatVal.num 1)) = false ∧
    validate_encoding (FloatVal.inf :: List.replicate 127 (FloatVal.num 1)) = false ∧
    validate_encoding (List.replicate 128 (FloatVal.num 0)) = false :=
  ⟨C7_validate_rejects [] (Or.inl (by decide)),
   C7_validate_rejects _ (Or.inr (Or.inl (by decide))),
   C7_validate_rejects _ (Or.inr (Or.inr (Or.inl (by decide)))),
   C7_validate_rejects _ (Or.inr (Or.inr (Or.inr (by decide))))⟩

/-- C9 (implicit): a probe failing validation makes `compare_faces` return
the empty comparison result — no exception, nothing compared —
even when the known-encodings list is non-empty. -/
theorem C9_invalid_probe_empty_result (distFn : Enc → Enc → ℚ)
    (known_encodings : List Enc) (face_encoding : Enc) (tolerance : ℚ)
    (h : validate_encoding face_encoding = false) :
    compare_faces distFn known_encodings face_encoding tolerance = empty_comparison_result ∧
    (compare_faces distFn known_encodings face_encoding tolerance).best_match_index = none ∧
    (compare_faces distFn known_encodings face_encoding tolerance).face_distances = [] ∧
    (compare_faces distFn known_encodings face_encoding tolerance).alternative_matches = [] ∧
    (compare_faces distFn known_encodings face_encoding tolerance).num_compared = 0 := by
  have he := compare_faces_of_invalid distFn known_encodings tolerance h
  rw [he]
  exact ⟨rfl, rfl, rfl, rfl, rfl⟩

/-- Closed witness for C9: a wrong-shape probe against a non-empty candidate
list. -/
theorem C9_witness :
    compare_faces (fun _ _ => (0 : ℚ)) [encOnes] [] (3/5) = empty_comparison_result :=
  (C9_invalid_probe_empty_result (fun _ _ => (0 : ℚ)) [encOnes] [] (3/5) (by decide)).1

/-- C5: enlarging the tolerance can only enlarge the set of candidates
reported as matching: any index flagged as a match under `t1` is flagged
under `t2 > t1`, for every candidate list and probe. -/
theorem C5_match_set_monotone (distFn : Enc → Enc → ℚ) (known_encodings : List Enc)
    (face_encoding : Enc) (t1 t2 : ℚ) (h : t1 < t2) (i : ℕ)
    (hm : (compare_faces distFn known_encodings face_encoding t1).matchesList.getD i false
          = true) :
    (compare_faces distFn known_encodings face_encoding t2).matchesList.getD i false = true := by
  by_cases h1 : known_encodings.length = 0
  · rw [compare_faces_of_empty distFn face_encoding t1 h1] at hm
    simp [empty_comparison_result] at hm
  · rcases validate_encoding_true_or_false face_encoding with h2 | h2
    · by_cases h3 : (match_flags (face_distances_of distFn known_encodings face_encoding) t1).any id = true
      · have hflags : (compare_faces distFn known_encodings face_encoding t1).matchesList
            = match_flags (face_distances_of distFn known_encodings face_encoding) t1 := by
          rw [compare_faces_pos_eq distFn known_encodings face_encoding t1 h1 h2 h3]
        rw [hflags] at hm
        obtain ⟨hlt, hle⟩ := match_flags_getD_true.mp hm
        have hgoal : (match_flags (face_distances_of distFn known_encodings face_encoding) t2).getD i false = true :=
          match_flags_getD_true.mpr ⟨hlt, le_trans hle (le_of_lt h)⟩
        by_cases h4 : (match_flags (face_distances_of distFn known_encodings face_encoding) t2).any id = true
        · rw [compare_faces_pos_eq distFn known_encodings face_encoding t2 h1 h2 h4]
          exact hgoal
        · rw [compare_faces_neg_eq distFn known_encodings face_encoding t2 h1 h2 h4]
          exact hgoal
      · have hflags : (compare_faces distFn known_encodings face_encoding t1).matchesList
            = match_flags (face_distances_of distFn known_encodings face_encoding) t1 := by
          rw [compare_faces_neg_eq distFn known_encodings face_encoding t1 h1 h2 h3]
        rw [hflags] at hm
        obtain ⟨hlt, hle⟩ := match_flags_getD_true.mp hm
        have hgoal : (match_flags (face_distances_of distFn known_encodings face_encoding) t2).getD i false = true :=
          match_flags_getD_true.mpr ⟨hlt, le_trans hle (le_of_lt h)⟩
        by_cases h4 : (match_flags (face_distances_of distFn known_encodings face_encoding) t2).any id = true
        · rw [compare_faces_pos_eq distFn known_encodings face_encoding t2 h1 h2 h4]
          exact hgoal
        · rw [compare_faces_neg_eq distFn known_encodings face_encoding t2 h1 h2 h4]
          exact hgoal
    · rw [compare_faces_of_invalid distFn known_encodings t1 h2] at hm
      simp [empty_comparison_result] at hm

set_option maxRecDepth 8192 in
/-- Closed witness for C5: a candidate at distance 1 matches under
tolerance 1 and still matches under tolerance 2. -/
theorem C5_witness :
    (1:ℚ) < 2 ∧
    (compare_faces (fun _ _ => (1 : ℚ)) [encOnes] encOnes 2).matchesList.getD 0 false
      = true :=
  ⟨by norm_num,
   C5_match_set_monotone (fun _ _ => (1 : ℚ)) [encOnes] encOnes 1 2
     (by norm_num) 0 (by decide)⟩

/-- C2: in `compare_faces`, whenever some candidate's distance is within
tolerance, `best_match_index` is an argmin of the distances and its distance
is itself within tolerance; `best_match_index` is set iff some entry of the
match list is `True`, so a no-best-match result with a matching candidate is
impossible, and best-match selection only happens when a match exists. -/
theorem C2_best_match_is_argmin (distFn : Enc → Enc → ℚ) (known_encodings : List Enc)
    (face_encoding : Enc) (tolerance : ℚ) (r : CompareResult)
    (hr : r = compare_faces distFn known_encodings face_encoding tolerance) :
    ((∃ i, r.matchesList.getD i false = true) →
      ∃ b, r.best_match_index = some b ∧ b < r.face_distances.length ∧
        r.best_match_distance = some (r.face_distances.getD b 0) ∧
        (∀ j < r.face_distances.length,
          r.face_distances.getD b 0 ≤ r.face_distances.getD j 0) ∧
        r.face_distances.getD b 0 ≤ tolerance) ∧
    (r.best_match_index.isSome = true ↔ ∃ i, r.matchesList.getD i false = true) := by
  subst hr
  by_cases h1 : known_encodings.length = 0
  · rw [compare_faces_of_empty distFn face_encoding tolerance h1]
    constructor
    · rintro ⟨i, hi⟩
      simp [empty_comparison_result] at hi
    · constructor
      · intro hs; simp [empty_comparison_result] at hs
      · rintro ⟨i, hi⟩; simp [empty_comparison_result] at hi
  · rcases validate_encoding_true_or_false face_encoding with h2 | h2
    · by_cases h3 : (match_flags (face_distances_of distFn known_encodings face_encoding) tolerance).any id = true
      · rw [compare_faces_pos_eq distFn known_encodings face_encoding tolerance h1 h2 h3]
        dsimp only
        have hdsne : face_distances_of distFn known_encodings face_encoding ≠ [] := by
          intro hnil
          apply h1
          have := congrArg List.length hnil
          simpa [face_distances_of] using this
        obtain ⟨hblt, hbmin⟩ :=
          argsort_head_min (face_distances_of distFn known_encodings face_encoding) hdsne
        obtain ⟨j, hj, hdj⟩ := match_flags_any_iff.mp h3
        constructor
        · intro _
          exact ⟨(argsort (face_distances_of distFn known_encodings face_encoding)).headD 0,
            rfl, hblt, rfl, hbmin, le_trans (hbmin j hj) hdj⟩
        · constructor
          · intro _
            exact ⟨j, match_flags_getD_true.mpr ⟨hj, hdj⟩⟩
          · intro _
            rfl
      · rw [compare_faces_neg_eq distFn known_encodings face_encoding tolerance h1 h2 h3]
        dsimp only
        constructor
        · rintro ⟨i, hi⟩
          obtain ⟨hlt, hle⟩ := match_flags_getD_true.mp hi
          exact absurd (match_flags_any_iff.mpr ⟨i, hlt, hle⟩) h3
        · constructor
          · intro hs; simp at hs
          · rintro ⟨i, hi⟩
            obtain ⟨hlt, hle⟩ := match_flags_getD_true.mp hi
            exact absurd (match_flags_any_iff.mpr ⟨i, hlt, hle⟩) h3
    · rw [compare_faces_of_invalid distFn known_encodings tolerance h2]
      constructor
      · rintro ⟨i, hi⟩
        simp [empty_comparison_result] at hi
      · constructor
        · intro hs; simp [empty_comparison_result] at hs
        · rintro ⟨i, hi⟩; simp [empty_comparison_result] at hi

set_option maxRecDepth 8192 in
/-- Closed witness for C2: a single candidate at distance 1 with tolerance 1
is selected as best match, an argmin within tolerance. -/
theorem C2_witness :
    ∃ b, (compare_faces (fun _ _ => (1:ℚ)) [encOnes] encOnes 1).best_match_index = some b ∧
      b < (compare_faces (fun _ _ => (1:ℚ)) [encOnes] encOnes 1).face_distances.length ∧
      (compare_faces (fun _ _ => (1:ℚ)) [encOnes] encOnes 1).best_match_distance =
        some ((compare_faces (fun _ _ => (1:ℚ)) [encOnes] encOnes 1).face_distances.getD b 0) ∧
      (∀ j < (compare_faces (fun _ _ => (1:ℚ)) [encOnes] encOnes 1).face_distances.length,
        (compare_faces (fun _ _ => (1:ℚ)) [encOnes] encOnes 1).face_distances.getD b 0 ≤
          (compare_faces (fun _ _ => (1:ℚ)) [encOnes] encOnes 1).face_distances.getD j 0) ∧
      (compare_faces (fun _ _ => (1:ℚ)) [encOnes] encOnes 1).face_distances.getD b 0 ≤ 1 :=
  (C2_best_match_is_argmin (fun _ _ => (1:ℚ)) [encOnes] encOnes 1 _ rfl).1 ⟨0, by decide⟩

/-! ### `build_known` under all-valid rows -/

theorem build_known_go {α : Type} (qs : List (α × Option Enc)) :
    ∀ (n : ℕ) (acc : List Enc × List (ℕ × α)),
      (∀ p ∈ qs, ∃ e, p.2 = some e ∧ validate_encoding e = true) →
      ((List.enumFrom n qs).foldl
        (fun acc p =>
          match p.2.2 with
          | some e =>
            if validate_encoding e then (acc.1 ++ [e], acc.2 ++ [(p.1, p.2.1)]) else acc
          | none => acc) acc).1
        = acc.1 ++ qs.filterMap (fun p => p.2) := by
  induction qs with
  | nil => intro n acc h; simp
  | cons p t ih =>
    intro n acc h
    obtain ⟨e, he, hv⟩ := h p (List.mem_cons_self _ _)
    obtain ⟨a, oe⟩ := p
    dsimp only at he
    subst he
    rw [List.enumFrom_cons, List.foldl_cons]
    dsimp only
    rw [if_pos hv, ih (n + 1) _ (fun q hq => h q (List.mem_cons_of_mem _ hq)),
      List.filterMap_cons]
    simp

theorem build_known_fst_all_valid {α : Type} (qs : List (α × Option Enc))
    (h : ∀ p ∈ qs, ∃ e, p.2 = some e ∧ validate_encoding e = true) :
    (build_known qs).1 = qs.filterMap (fun p => p.2) := by
  unfold build_known List.enum
  simpa using build_known_go qs 0 ([], []) h

theorem filterMap_all_some_length {α : Type} (qs : List (α × Option Enc))
    (h : ∀ p ∈ qs, ∃ e, p.2 = some e ∧ validate_encoding e = true) :
    (qs.filterMap (fun p => p.2)).length = qs.length := by
  induction qs with
  | nil => simp
  | cons p t ih =>
    obtain ⟨e, he, -⟩ := h p (List.mem_cons_self _ _)
    rw [List.filterMap_cons, he]
    simp [ih (fun q hq => h q (List.mem_cons_of_mem _ hq))]

/-- C10 (implicit): when `find_matching_student` finds no candidate within
tolerance over a non-empty, all-valid candidate list, the result has
`found = false` and `match_distance` is the distance from the probe to the
*first* candidate in list order, not the minimum distance. -/
theorem C10_no_match_distance_is_first {α : Type} (distFn : Enc → Enc → ℚ)
    (face_encoding : Enc) (face_encodings_qs : List (α × Option Enc))
    (tolerance : ℚ) (min_confidence : Option ℚ) (return_alternatives : Bool)
    (p0 : α × Option Enc) (t : List (α × Option Enc))
    (hqs : face_encodings_qs = p0 :: t)
    (hvalid : ∀ p ∈ face_encodings_qs, ∃ e, p.2 = some e ∧ validate_encoding e = true)
    (hprobe : validate_encoding face_encoding = true)
    (hfar : ∀ p ∈ face_encodings_qs, ∀ e, p.2 = some e →
      tolerance < distFn e face_encoding) :
    ∃ e0, p0.2 = some e0 ∧
      find_matching_student distFn face_encoding face_encodings_qs tolerance
          min_confidence return_alternatives
        = .ok { found := false, student := none, confidence := none,
                match_distance := some (distFn e0 face_encoding),
                num_compared := face_encodings_qs.length,
                alternative_matches := [], match_quality := none } := by
  subst hqs
  obtain ⟨e0, he0, hv0⟩ := hvalid p0 (List.mem_cons_self _ _)
  refine ⟨e0, he0, ?_⟩
  have hk : (build_known (p0 :: t)).1 = (p0 :: t).filterMap (fun p => p.2) :=
    build_known_fst_all_valid _ hvalid
  have hlen : ((p0 :: t).filterMap (fun p => p.2)).length = (p0 :: t).length :=
    filterMap_all_some_length _ hvalid
  have hallfar : ∀ d ∈ face_distances_of distFn (build_known (p0 :: t)).1 face_encoding,
      tolerance < d := by
    intro d hd
    unfold face_distances_of at hd
    obtain ⟨k, hkmem, rfl⟩ := List.mem_map.mp hd
    rw [hk] at hkmem
    obtain ⟨p, hp, hpe⟩ := List.mem_filterMap.mp hkmem
    exact hfar p hp k hpe
  have hany : ¬ (match_flags
      (face_distances_of distFn (build_known (p0 :: t)).1 face_encoding) tolerance).any id
      = true := by
    intro hc
    obtain ⟨j, hj, hdj⟩ := match_flags_any_iff.mp hc
    have hmem : (face_distances_of distFn (build_known (p0 :: t)).1 face_encoding).getD j 0
        ∈ face_distances_of distFn (build_known (p0 :: t)).1 face_encoding := by
      rw [List.getD_eq_getElem _ _ hj]
      exact List.getElem_mem hj
    exact absurd hdj (not_le.mpr (hallfar _ hmem))
  have hlenne : ¬ (build_known (p0 :: t)).1.length = 0 := by
    rw [hk, hlen]
    simp
  have hcf := compare_faces_neg_eq distFn (build_known (p0 :: t)).1 face_encoding tolerance
    hlenne hprobe hany
  unfold find_matching_student
  rw [if_neg hlenne, hcf]
  dsimp only
  have hknown : (build_known (p0 :: t)).1 = e0 :: t.filterMap (fun p => p.2) := by
    rw [hk, List.filterMap_cons, he0]
  have hhead : (face_distances_of distFn (build_known (p0 :: t)).1 face_encoding).head?
      = some (distFn e0 face_encoding) := by
    rw [hknown]
    unfold face_distances_of
    rfl
  rw [hhead, hk, hlen]

/-! ### Store invariant lemmas -/

theorem uniqueIds_inj {s : StoreState} (h : uniqueIds s) {r1 r2 : EncRecord}
    (h1 : r1 ∈ s) (h2 : r2 ∈ s) (hid : r1.id = r2.id) : r1 = r2 := by
  by_contra hne
  have hsym : Symmetric (fun r1 r2 : EncRecord => r1.id ≠ r2.id) := by
    intro a b hab he
    exact hab he.symm
  exact (List.Pairwise.forall hsym h h1 h2 hne) hid

theorem filter_conflict_empty_iff (s : StoreState) (stu eid : ℕ) :
    (s.filter (fun r => r.student == stu && r.is_active && r.id != eid)).isEmpty = true ↔
      ∀ r ∈ s, r.student = stu → r.is_active = true → r.id = eid := by
  rw [List.isEmpty_iff, List.filter_eq_nil_iff]
  constructor
  · intro h r hr hstu hact
    by_contra hne
    exact h r hr (by simp [hstu, hact, hne])
  · intro h r hr hb
    simp only [Bool.and_eq_true, beq_iff_eq, bne_iff_ne, ne_eq] at hb
    exact hb.2 (h r hr hb.1.1 hb.1.2)

theorem find?_id_eq {s : StoreState} (h : uniqueIds s) {rec0 : EncRecord} {eid : ℕ}
    (hmem : rec0 ∈ s) (hid : rec0.id = eid) :
    s.find? (fun r => r.id == eid) = some rec0 := by
  have hsome : (s.find? (fun r => r.id == eid)).isSome = true :=
    List.find?_isSome.mpr ⟨rec0, hmem, by simp [hid]⟩
  cases hfind : s.find? (fun r => r.id == eid) with
  | none => rw [hfind] at hsome; cases hsome
  | some r2 =>
    have hid2 : r2.id = eid := by simpa using List.find?_some hfind
    have heq : r2 = rec0 :=
      uniqueIds_inj h (List.mem_of_find?_eq_some hfind) hmem (by rw [hid2, hid])
    rw [heq]

theorem activate_preserves_inv (s : StoreState) (eid : ℕ) (h : StoreInv s) :
    StoreInv (activate_encoding s eid).1 := by
  obtain ⟨hu, ha⟩ := h
  unfold activate_encoding
  cases hfind : s.find? (fun r => r.id == eid) with
  | none => exact ⟨hu, ha⟩
  | some rec0 =>
    dsimp only
    by_cases hemp : (s.filter (fun r =>
        r.student == rec0.student && r.is_active && r.id != eid)).isEmpty = true
    · rw [if_pos hemp]
      have hgid : ∀ r : EncRecord,
          ((if r.id == eid then { r with is_active := true } else r) : EncRecord).id = r.id := by
        intro r
        by_cases hh : r.id = eid <;> simp [hh]
      constructor
      · refine List.Pairwise.map _ ?_ hu
        intro a b hab
        rw [hgid, hgid]
        exact hab
      · intro r1' hr1 r2' hr2 hact1 hact2 hstu
        obtain ⟨r1, hr1m, rfl⟩ := List.mem_map.mp hr1
        obtain ⟨r2, hr2m, rfl⟩ := List.mem_map.mp hr2
        have hrec0 : rec0 ∈ s := List.mem_of_find?_eq_some hfind
        have hrid : rec0.id = eid := by simpa using List.find?_some hfind
        by_cases h1 : r1.id = eid <;> by_cases h2 : r2.id = eid
        · have : r1 = r2 := uniqueIds_inj hu hr1m hr2m (h1.trans h2.symm)
          rw [this]
        · have hr1rec : r1 = rec0 := uniqueIds_inj hu hr1m hrec0 (by rw [h1, hrid])
          have hg2 : (if r2.id == eid then { r2 with is_active := true } else r2) = r2 := by
            simp [h2]
          rw [hg2] at hact2 hstu
          have hg1stu :
              ((if r1.id == eid then { r1 with is_active := true } else r1) : EncRecord).student
                = r1.student := by
            by_cases hh : r1.id = eid <;> simp [hh]
          rw [hg1stu] at hstu
          have hcontr := (filter_conflict_empty_iff s rec0.student eid).mp hemp r2 hr2m
            (by rw [← hstu, hr1rec]) hact2
          exact absurd hcontr h2
        · have hr2rec : r2 = rec0 := uniqueIds_inj hu hr2m hrec0 (by rw [h2, hrid])
          have hg1 : (if r1.id == eid then { r1 with is_active := true } else r1) = r1 := by
            simp [h1]
          rw [hg1] at hact1 hstu
          have hg2stu :
              ((if r2.id == eid then { r2 with is_active := true } else r2) : EncRecord).student
                = r2.student := by
            by_cases hh : r2.id = eid <;> simp [hh]
          rw [hg2stu] at hstu
          have hcontr := (filter_conflict_empty_iff s rec0.student eid).mp hemp r1 hr1m
            (by rw [hstu, hr2rec]) hact1
          exact absurd hcontr h1
        · have hg1 : (if r1.id == eid then { r1 with is_active := true } else r1) = r1 := by
            simp [h1]
          have hg2 : (if r2.id == eid then { r2 with is_active := true } else r2) = r2 := by
            simp [h2]
          rw [hg1] at hact1 hstu ⊢
          rw [hg2] at hact2 hstu ⊢
          exact ha r1 hr1m r2 hr2m hact1 hact2 hstu
    · rw [if_neg hemp]
      exact ⟨hu, ha⟩

theorem deactivate_preserves_inv (s : StoreState) (eid : ℕ) (h : StoreInv s) :
    StoreInv (deactivate_encoding s eid) := by
  obtain ⟨hu, ha⟩ := h
  unfold deactivate_encoding
  have hgid : ∀ r : EncRecord,
      ((if r.id == eid then { r with is_active := false } else r) : EncRecord).id = r.id := by
    intro r
    by_cases hh : r.id = eid <;> simp [hh]
  constructor
  · refine List.Pairwise.map _ ?_ hu
    intro a b hab
    rw [hgid, hgid]
    exact hab
  · intro r1' hr1 r2' hr2 hact1 hact2 hstu
    obtain ⟨r1, hr1m, rfl⟩ := List.mem_map.mp hr1
    obtain ⟨r2, hr2m, rfl⟩ := List.mem_map.mp hr2
    by_cases h1 : r1.id = eid
    · have : ((if r1.id == eid then { r1 with is_active := false } else r1) : EncRecord).is_active
          = false := by simp [h1]
      rw [this] at hact1
      cases hact1
    · by_cases h2 : r2.id = eid
      · have : ((if r2.id == eid then { r2 with is_active := false } else r2) : EncRecord).is_active
            = false := by simp [h2]
        rw [this] at hact2
        cases hact2
      · have hg1 : (if r1.id == eid then { r1 with is_active := false } else r1) = r1 := by
          simp [h1]
        have hg2 : (if r2.id == eid then { r2 with is_active := false } else r2) = r2 := by
          simp [h2]
        rw [hg1] at hact1 hstu ⊢
        rw [hg2] at hact2 hstu ⊢
        exact ha r1 hr1m r2 hr2m hact1 hact2 hstu

theorem clean_save_preserves_inv (s : StoreState) (rec0 : EncRecord) (h : StoreInv s) :
    StoreInv (clean_save s rec0) := by
  obtain ⟨hu, ha⟩ := h
  unfold clean_save
  by_cases hok : clean_ok s rec0 = true
  · rw [if_pos hok]
    have hcases : rec0.is_active = false ∨
        (∀ r ∈ s, r.student = rec0.student → r.is_active = true → r.id = rec0.id) := by
      simp only [clean_ok, Bool.or_eq_true] at hok
      rcases hok with hh | hh
      · left; simpa using hh
      · right; exact (filter_conflict_empty_iff s rec0.student rec0.id).mp hh
    by_cases hfind : (s.find? (fun r => r.id == rec0.id)).isSome = true
    · rw [if_pos hfind]
      have hgid : ∀ r : EncRecord,
          ((if r.id == rec0.id then rec0 else r) : EncRecord).id = r.id := by
        intro r
        by_cases hh : r.id = rec0.id <;> simp [hh]
      constructor
      · refine List.Pairwise.map _ ?_ hu
        intro a b hab
        rw [hgid, hgid]
        exact hab
      · intro r1' hr1 r2' hr2 hact1 hact2 hstu
        obtain ⟨r1, hr1m, rfl⟩ := List.mem_map.mp hr1
        obtain ⟨r2, hr2m, rfl⟩ := List.mem_map.mp hr2
        by_cases h1 : r1.id = rec0.id <;> by_cases h2 : r2.id = rec0.id
        · simp [h1, h2]
        · have hg1 : (if r1.id == rec0.id then rec0 else r1) = rec0 := by simp [h1]
          have hg2 : (if r2.id == rec0.id then rec0 else r2) = r2 := by simp [h2]
          rw [hg1] at hact1 hstu
          rw [hg2] at hact2 hstu
          rcases hcases with hinact | hone
          · rw [hinact] at hact1; cases hact1
          · exact absurd (hone r2 hr2m hstu.symm hact2) h2
        · have hg1 : (if r1.id == rec0.id then rec0 else r1) = r1 := by simp [h1]
          have hg2 : (if r2.id == rec0.id then rec0 else r2) = rec0 := by simp [h2]
          rw [hg1] at hact1 hstu
          rw [hg2] at hact2 hstu
          rcases hcases with hinact | hone
          · rw [hinact] at hact2; cases hact2
          · exact absurd (hone r1 hr1m hstu hact1) h1
        · have hg1 : (if r1.id == rec0.id then rec0 else r1) = r1 := by simp [h1]
          have hg2 : (if r2.id == rec0.id then rec0 else r2) = r2 := by simp [h2]
          rw [hg1] at hact1 hstu ⊢
          rw [hg2] at hact2 hstu ⊢
          exact ha r1 hr1m r2 hr2m hact1 hact2 hstu
    · rw [if_neg hfind]
      have hnotin : ∀ r ∈ s, r.id ≠ rec0.id := by
        intro r hr
        have := List.find?_eq_none.mp (by
          cases hf : s.find? (fun r => r.id == rec0.id)
          · rfl
          · rw [hf] at hfind; simp at hfind) r hr
        simpa using this
      constructor
      · rw [uniqueIds, List.pairwise_append]
        exact ⟨hu, List.pairwise_singleton _ _, fun a hamem b hbmem => by
          rw [List.mem_singleton] at hbmem
          rw [hbmem]
          exact hnotin a hamem⟩
      · intro r1' hr1 r2' hr2 hact1 hact2 hstu
        rcases List.mem_append.mp hr1 with hm1 | hm1 <;>
          rcases List.mem_append.mp hr2 with hm2 | hm2
        · exact ha r1' hm1 r2' hm2 hact1 hact2 hstu
        · rw [List.mem_singleton] at hm2
          subst hm2
          rcases hcases with hinact | hone
          · rw [hinact] at hact2; cases hact2
          · exact absurd (hone r1' hm1 hstu hact1) (hnotin r1' hm1)
        · rw [List.mem_singleton] at hm1
          subst hm1
          rcases hcases with hinact | hone
          · rw [hinact] at hact1; cases hact1
          · exact absurd (hone r2' hm2 hstu.symm hact2) (hnotin r2' hm2)
        · rw [List.mem_singleton] at hm1 hm2
          rw [hm1, hm2]
  · rw [if_neg hok]
    exact ⟨hu, ha⟩

theorem store_step_preserves_inv (s : StoreState) (op : StoreOp) (h : StoreInv s) :
    StoreInv (store_step s op) := by
  cases op with
  | activate eid => exact activate_preserves_inv s eid h
  | deactivate eid => exact deactivate_preserves_inv s eid h
  | save rec0 => exact clean_save_preserves_inv s rec0 h

theorem store_run_preserves_inv (ops : List StoreOp) :
    ∀ s, StoreInv s → StoreInv (store_run s ops) := by
  induction ops with
  | nil => intro s h; exact h
  | cons op t ih =>
    intro s h
    unfold store_run at *
    rw [List.foldl_cons]
    exact ih _ (store_step_preserves_inv s op h)

theorem activate_rejects (s : StoreState) (eid : ℕ) (hu : uniqueIds s)
    (rec0 : EncRecord) (hrec : rec0 ∈ s) (hid : rec0.id = eid)
    (r' : EncRecord) (hr' : r' ∈ s) (hrid : r'.id ≠ eid)
    (hstu : r'.student = rec0.student) (hact : r'.is_active = true) :
    activate_encoding s eid = (s, false) := by
  unfold activate_encoding
  rw [find?_id_eq hu hrec hid]
  dsimp only
  have hne : ¬ (s.filter (fun r =>
      r.student == rec0.student && r.is_active && r.id != eid)).isEmpty = true := by
    intro hemp
    exact hrid ((filter_conflict_empty_iff s rec0.student eid).mp hemp r' hr' hstu hact)
  rw [if_neg hne]

/-- C3: starting from a well-formed store, every sequence of
activate/deactivate/validated-save calls (each call atomic, as each Django
request's check-then-write executes against the single database) preserves
"at most one active encoding per identity"; and an activation attempt on a
record while another active record for the same identity exists is rejected
— the state (hence the record's inactive flag) is left unchanged and the
call reports failure (the `StorageConflict` outcome). -/
theorem C3_single_active_invariant (s : StoreState) (h : StoreInv s) :
    (∀ ops : List StoreOp, atMostOneActive (store_run s ops)) ∧
    (∀ eid rec0 r', rec0 ∈ s → rec0.id = eid → r' ∈ s → r'.id ≠ eid →
      r'.student = rec0.student → r'.is_active = true →
      activate_encoding s eid = (s, false)) := by
  constructor
  · intro ops
    exact (store_run_preserves_inv ops s h).2
  · intro eid rec0 r' hrec hid hr' hrid hstu hact
    exact activate_rejects s eid h.1 rec0 hrec hid r' hr' hrid hstu hact

/-- Closed witness for C3: for a two-record store where record 2 is the
active one for student 7, a call sequence keeps the invariant, and
activating record 1 is rejected without touching the state. -/
theorem C3_witness :
    atMostOneActive (store_run [⟨1, 7, false⟩, ⟨2, 7, true⟩]
      [.activate 1, .deactivate 2, .activate 1]) ∧
    activate_encoding [⟨1, 7, false⟩, ⟨2, 7, true⟩] 1
      = ([⟨1, 7, false⟩, ⟨2, 7, true⟩], false) :=
  ⟨(C3_single_active_invariant [⟨1, 7, false⟩, ⟨2, 7, true⟩] (by decide)).1 _,
   (C3_single_active_invariant [⟨1, 7, false⟩, ⟨2, 7, true⟩] (by decide)).2 1
     ⟨1, 7, false⟩ ⟨2, 7, true⟩ (by simp) (by decide) (by simp) (by decide)
     (by decide) (by decide)⟩

/-- C8: the composite quality score is the weighted sum of the four
sub-scores with weights 25/35/20/20 percent, each sub-score lying in
`[0,100]` (brightness unconditionally; sharpness and contrast for the
nonnegative values a variance and a standard deviation produce); and at
brightness 128, sharpness 200, contrast 100, face size 200 all sub-scores
saturate, the composite score is 100 and (for a square, untilted face)
`is_good_quality` is true. -/
theorem C8_weighted_quality_score (b s c : ℚ) (fs : ℤ) (hs : 0 ≤ s) (hc : 0 ≤ c) :
    (0 ≤ brightness_score b ∧ brightness_score b ≤ 100) ∧
    (0 ≤ sharpness_score s ∧ sharpness_score s ≤ 100) ∧
    (0 ≤ contrast_score c ∧ contrast_score c ≤ 100) ∧
    (0 ≤ size_score fs ∧ size_score fs ≤ 100) ∧
    calculate_quality_score b s c fs
      = (1/4) * brightness_score b + (7/20) * sharpness_score s
        + (1/5) * contrast_score c + (1/5) * size_score fs ∧
    calculate_quality_score 128 200 100 200 = 100 ∧
    is_good_quality_calc 128 200 100 200 1 false = true := by
  refine ⟨⟨le_max_left _ _, ?_⟩, ⟨?_, min_le_left _ _⟩, ⟨?_, min_le_left _ _⟩,
    ⟨?_, ?_⟩, rfl, ?_, ?_⟩
  · apply max_le (by norm_num)
    have := abs_nonneg (b - 128)
    nlinarith
  · apply le_min (by norm_num)
    nlinarith
  · apply le_min (by norm_num)
    nlinarith
  · unfold size_score
    split_ifs with hpos
    · apply le_min (by norm_num)
      have : (0:ℚ) ≤ (fs : ℚ) := by exact_mod_cast le_of_lt hpos
      nlinarith
    · norm_num
  · unfold size_score
    split_ifs with hpos
    · exact min_le_left _ _
    · norm_num
  · norm_num [calculate_quality_score, brightness_score, sharpness_score,
      contrast_score, size_score]
  · simp only [is_good_quality_calc, quality_issues, calculate_quality_score,
      brightness_score, sharpness_score, contrast_score, size_score,
      decide_eq_true_eq]
    norm_num

/-- Closed witness for C8 at the saturating metric values. -/
theorem C8_witness :
    calculate_quality_score 128 200 100 200 = 100 ∧
      is_good_quality_calc 128 200 100 200 1 false = true :=
  ⟨(C8_weighted_quality_score 128 200 100 200 (by norm_num) (by norm_num)).2.2.2.2.2.1,
   (C8_weighted_quality_score 128 200 100 200 (by norm_num) (by norm_num)).2.2.2.2.2.2⟩

/-! ### Byte-level round-trip lemmas -/

theorem bytesToF32s_roundtrip (v : List ℕ) (h : ∀ x ∈ v, x < 2 ^ 32) :
    bytesToF32s ((v.map f32ToBytes).flatten) = some v := by
  induction v with
  | nil => rfl
  | cons x t ih =>
    have hx : x < 2 ^ 32 := h x (List.mem_cons_self _ _)
    rw [List.map_cons, List.flatten_cons]
    show bytesToF32s (x % 256 :: x / 256 % 256 :: x / 256 ^ 2 % 256 :: x / 256 ^ 3 % 256
      :: (t.map f32ToBytes).flatten) = some (x :: t)
    rw [bytesToF32s, ih (fun y hy => h y (List.mem_cons_of_mem _ hy))]
    have hrec : x % 256 + 256 * (x / 256 % 256) + 256 ^ 2 * (x / 256 ^ 2 % 256)
        + 256 ^ 3 * (x / 256 ^ 3 % 256) = x := by
      norm_num
      omega
    rw [Option.map_some', hrec]

theorem bytesToF64s_roundtrip (v : List ℕ) (h : ∀ x ∈ v, x < 2 ^ 64) :
    bytesToF64s ((v.map f64ToBytes).flatten) = some v := by
  induction v with
  | nil => rfl
  | cons x t ih =>
    have hx : x < 2 ^ 64 := h x (List.mem_cons_self _ _)
    rw [List.map_cons, List.flatten_cons]
    show bytesToF64s (x % 256 :: x / 256 % 256 :: x / 256 ^ 2 % 256 :: x / 256 ^ 3 % 256
      :: x / 256 ^ 4 % 256 :: x / 256 ^ 5 % 256 :: x / 256 ^ 6 % 256 :: x / 256 ^ 7 % 256
      :: (t.map f64ToBytes).flatten) = some (x :: t)
    rw [bytesToF64s, ih (fun y hy => h y (List.mem_cons_of_mem _ hy))]
    have hrec : x % 256 + 256 * (x / 256 % 256) + 256 ^ 2 * (x / 256 ^ 2 % 256)
        + 256 ^ 3 * (x / 256 ^ 3 % 256) + 256 ^ 4 * (x / 256 ^ 4 % 256)
        + 256 ^ 5 * (x / 256 ^ 5 % 256) + 256 ^ 6 * (x / 256 ^ 6 % 256)
        + 256 ^ 7 * (x / 256 ^ 7 % 256) = x := by
      norm_num
      omega
    rw [Option.map_some', hrec]

/-- Reading float64-serialized bytes at float32 width succeeds and yields
twice as many elements. -/
theorem bytesToF32s_of_f64_bytes (v : List ℕ) :
    ∃ w, bytesToF32s ((v.map f64ToBytes).flatten) = some w ∧ w.length = 2 * v.length := by
  induction v with
  | nil => exact ⟨[], rfl, rfl⟩
  | cons x t ih =>
    obtain ⟨w, hw, hlen⟩ := ih
    rw [List.map_cons, List.flatten_cons]
    refine ⟨(x % 256 + 256 * (x / 256 % 256) + 256 ^ 2 * (x / 256 ^ 2 % 256)
        + 256 ^ 3 * (x / 256 ^ 3 % 256))
      :: (x / 256 ^ 4 % 256 + 256 * (x / 256 ^ 5 % 256) + 256 ^ 2 * (x / 256 ^ 6 % 256)
        + 256 ^ 3 * (x / 256 ^ 7 % 256)) :: w, ?_, ?_⟩
    · show bytesToF32s (x % 256 :: x / 256 % 256 :: x / 256 ^ 2 % 256 :: x / 256 ^ 3 % 256
        :: x / 256 ^ 4 % 256 :: x / 256 ^ 5 % 256 :: x / 256 ^ 6 % 256 :: x / 256 ^ 7 % 256
        :: (t.map f64ToBytes).flatten) = _
      rw [bytesToF32s, bytesToF32s, hw]
      rfl
    · simp [hlen]
      ring

/-- C6: serialising a 128-element float32 vector with `save_encoding` and
reading it back with `get_encoding` returns exactly the original vector; and
for a legacy record serialised as 128 float64 values, `get_encoding` detects
the wide layout by its element count and returns the 128-element vector
downcast element-wise to float32 (for any downcast function), never
truncating or reinterpreting the bytes. -/
theorem C6_storage_roundtrip (castF64toF32 : ℕ → ℕ) (v v64 : List ℕ)
    (hv : v.length = 128) (hvlt : ∀ x ∈ v, x < 2 ^ 32)
    (h64 : v64.length = 128) (h64lt : ∀ x ∈ v64, x < 2 ^ 64) :
    (∃ data, save_encoding_f32 v = some data ∧
      get_encoding castF64toF32 data = .ok (some v)) ∧
    (∃ data, save_encoding_f64 v64 = some data ∧
      get_encoding castF64toF32 data = .ok (some (v64.map castF64toF32))) := by
  constructor
  · refine ⟨(v.map f32ToBytes).flatten, ?_, ?_⟩
    · unfold save_encoding_f32
      rw [if_pos hv]
    · have hrt := bytesToF32s_roundtrip v hvlt
      have hne : ¬ ((v.map f32ToBytes).flatten).length = 0 := by
        intro h0
        rw [List.length_eq_zero.mp h0] at hrt
        have : v = [] := by
          have := hrt
          simp [bytesToF32s] at this
          exact this
        rw [this] at hv
        simp at hv
      unfold get_encoding
      rw [if_neg hne, hrt]
      dsimp only
      rw [if_pos hv]
  · refine ⟨(v64.map f64ToBytes).flatten, ?_, ?_⟩
    · unfold save_encoding_f64
      rw [if_pos h64]
    · have hrt := bytesToF64s_roundtrip v64 h64lt
      obtain ⟨w, hw, hwlen⟩ := bytesToF32s_of_f64_bytes v64
      have hne : ¬ ((v64.map f64ToBytes).flatten).length = 0 := by
        intro h0
        rw [List.length_eq_zero.mp h0] at hrt
        have : v64 = [] := by
          have := hrt
          simp [bytesToF64s] at this
          exact this
        rw [this] at h64
        simp at h64
      have hw256 : w.length = 256 := by rw [hwlen, h64]
      unfold get_encoding
      rw [if_neg hne, hw]
      dsimp only
      rw [if_neg (by rw [hw256]; norm_num), if_pos hw256, hrt]
      dsimp only
      rw [if_pos h64]

/-- Closed witness for C6: a constant float32 vector round-trips exactly, and
a constant legacy float64 vector is detected and downcast. -/
theorem C6_witness :
    (∃ data, save_encoding_f32 (List.replicate 128 3) = some data ∧
      get_encoding (fun x => x % 2 ^ 32) data = .ok (some (List.replicate 128 3))) ∧
    (∃ data, save_encoding_f64 (List.replicate 128 7) = some data ∧
      get_encoding (fun x => x % 2 ^ 32) data
        = .ok (some ((List.replicate 128 7).map (fun x => x % 2 ^ 32)))) :=
  C6_storage_roundtrip (fun x => x % 2 ^ 32) (List.replicate 128 3) (List.replicate 128 7)
    (by simp)
    (fun x hx => by rw [List.eq_of_mem_replicate hx]; norm_num)
    (by simp)
    (fun x hx => by rw [List.eq_of_mem_replicate hx]; norm_num)

/-- C4 counterexample: at a concrete successful recognition where the
success-log write raises, the flow returns `result_message = 'error'`
instead of the unchanged `'success'` result, and if the error-log write in
the handler also raises, the exception escapes to the caller — so log
failures are neither fully swallowed nor result-preserving. -/
theorem C4_counterexample :
    process_recognition_image ⟨true, false, "", 1, true, 7, 90⟩
        ⟨false, false, true, false, false⟩
      = .ok ⟨some 7, some 90, some "error"⟩ ∧
    process_recognition_image ⟨true, false, "", 1, true, 7, 90⟩ noLogRaises
      = .ok ⟨some 7, some 90, some "success"⟩ ∧
    process_recognition_image ⟨true, false, "", 1, true, 7, 90⟩
        ⟨false, false, true, false, true⟩
      = .error () := by
  refine ⟨rfl, rfl, rfl⟩

/-- C4 (amended): a raising `RecognitionLog` write is caught by the outer
handler; as long as the handler's own error-log write does not raise, no
exception reaches the caller, but on the success path the already computed
student and confidence are returned with `result_message = 'error'` instead
of `'success'`; if the handler's log write raises too, the exception
propagates. -/
theorem C4_amended_log_failure_behavior (env : RecogEnv) (lr : LogRaises)
    (hok : lr.onError = false) :
    (∃ ret, process_recognition_image env lr = .ok ret) ∧
    (env.extractSuccess = true → env.numFaces ≤ 1 → env.matchFound = true →
      lr.onSuccess = true →
      process_recognition_image env lr
        = .ok ⟨some env.student, some env.conf, some "error"⟩) := by
  constructor
  · unfold process_recognition_image
    split_ifs <;> simp [recognition_exc_handler, hok]
  · intro h1 h2 h3 h4
    unfold process_recognition_image
    rw [if_neg (by simp [h1])]
    rw [if_neg (by rintro ⟨hlt, -⟩; omega)]
    rw [if_pos h3, if_pos h4]
    unfold recognition_exc_handler
    rw [if_neg (by simp [hok])]

/-- Closed witness for the amended C4 at a concrete successful match with a
raising success-log write. -/
theorem C4_witness :
    process_recognition_image ⟨true, false, "", 1, true, 7, 90⟩
        ⟨false, false, true, false, false⟩
      = .ok ⟨some 7, some 90, some "error"⟩ :=
  (C4_amended_log_failure_behavior ⟨true, false, "", 1, true, 7, 90⟩
    ⟨false, false, true, false, false⟩ rfl).2 rfl (by norm_num) rfl rfl

set_option maxRecDepth 8192 in
/-- Closed witness for C10: one valid candidate at distance 2 against
tolerance 1 yields `found = false` with `match_distance` the distance to
that first candidate. -/
theorem C10_witness :
    ∃ e0, ((5 : ℕ), some encOnes).2 = some e0 ∧
      find_matching_student (fun _ _ => (2:ℚ)) encOnes [((5 : ℕ), some encOnes)] 1 none true
        = .ok { found := false, student := none, confidence := none,
                match_distance := some 2, num_compared := 1,
                alternative_matches := [], match_quality := none } :=
  C10_no_match_distance_is_first (fun _ _ => (2:ℚ)) encOnes [((5 : ℕ), some encOnes)] 1
    none true ((5 : ℕ), some encOnes) [] rfl
    (by
      intro p hp
      rw [List.mem_singleton] at hp
      subst hp
      exact ⟨encOnes, rfl, by decide⟩)
    (by decide)
    (by
      intro p hp e hpe
      rw [List.mem_singleton] at hp
      subst hp
      have he : encOnes = e := Option.some.inj hpe
      subst he
      norm_num)
